import Mathlib

/-! Orchestration wiring of the rollup relayer (`rollup/cmd/rollup_relayer/app/app.go`).

A shallow embedding of `action`, the entry point of the rollup relayer.  The
function is straight-line Go code with early returns, one deferred closure and
one blocking channel receive; it is embedded as a function from the outcomes of
its fallible collaborators (`Env`) to the trace of calls it performs together
with the way it ends (`Run`).
-/

namespace RollupRelayer

/-! ## Contexts -/

/-- The three contexts of `action`: `ctx.Context` of the CLI, and the two made by
`context.WithCancel(ctx.Context)` at lines 53 and 54. -/
inductive Ctx where
  | root
  | instanceCtx
  | loopCtx
  deriving DecidableEq, Repr

/-- Parent of a context, as written at lines 53-54: both derived contexts are
children of `ctx.Context`. -/
def Ctx.parent : Ctx → Option Ctx
  | .root => none
  | .instanceCtx => some .root
  | .loopCtx => some .root

/-- A context is derived from another when it is that context or one of its
descendants (the tree has depth one). -/
def Ctx.derivedFrom (c anc : Ctx) : Bool :=
  c == anc || c.parent == some anc

/-- Go `context` semantics: a context is done once its own cancel function or
the cancel function of an ancestor has been called. -/
def Ctx.done (cancelled : List Ctx) (c : Ctx) : Bool :=
  cancelled.any (fun a => c.derivedFrom a)

/-! ## Events and runs -/

/-- The five periodic units started at lines 94-107. -/
inductive PeriodicUnit where
  | watcherBackfill
  | tryProposeChunk
  | tryProposeBatch
  | processPendingBatches
  | processCommittedBatches
  deriving DecidableEq, Repr

/-- Go error values. -/
abbrev GoError := String

/-- The value of `time.Second` as a `time.Duration` (nanoseconds). -/
def second : Nat := 1000000000

/-- Calls made by `action`, in program order. -/
inductive Event where
  | newConfig (ok : Bool)
  | withCancel (child parent : Ctx)
  | initDB (ok : Bool)
  | observabilityServer
  | dial (ok : Bool)
  | newLayer2Relayer (ctx : Ctx) (ok : Bool)
  | newChunkProposer (ctx : Ctx)
  | newBatchProposer (ctx : Ctx)
  | newL2WatcherClient (ctx : Ctx)
  | goLoop (ctx : Ctx) (interval : Nat) (unit : PeriodicUnit)
  | logCrit (msg : String)
  | logError (msg : String)
  | logInfo (msg : String)
  | signalNotify
  | recvInterrupt
  | loopCancel
  | relayerClose
  | instanceCancel
  | closeDB (ok : Bool)
  deriving DecidableEq, Repr

/-- How a call of `action` ends: it returns an `error` (nil is `none`), the
process exits inside `log.Crit`, or it stays blocked on `<-interrupt`. -/
inductive Outcome where
  | returned (err : Option GoError)
  | exited (code : Nat)
  | blocked
  deriving DecidableEq, Repr

/-- Results of the fallible collaborators of `action` (`none` is a nil error),
and whether an OS interrupt is ever delivered to the process. -/
structure Env where
  newConfig : Option GoError
  initDB : Option GoError
  dial : Option GoError
  newLayer2Relayer : Option GoError
  closeDB : Option GoError
  interrupt : Bool
  deriving Repr

/-- A run of `action`: the calls made and the way it ended. -/
structure Run where
  trace : List Event
  outcome : Outcome
  deriving Repr

/-- The deferred closure of lines 109-127. -/
def shutdown (env : Env) : List Event :=
  let t := [Event.logInfo "Graceful shutdown initiated", .loopCancel, .relayerClose,
    .instanceCancel]
  let err := env.closeDB
  let t := t ++ [.closeDB err.isNone]
  if err.isSome then t ++ [.logError "Failed to close database connection"] else t

/-- The function `action` of app.go, lines 45-140.  The local variable `err` is
kept as in the source: it is assigned by `NewConfig`, `InitDB`, `Dial` and
`NewLayer2Relayer` only, and tested after each of the six steps that the source
tests it after.  `log.Crit` logs and ends the process with exit code 1, so the
two branches that call it do not return.  The deferred closure is registered
after the five loops are started and runs when the function returns after the
receive on `interrupt`; the result `nil` is not a named result, so the
assignment to `err` inside the closure does not change it. -/
def action (env : Env) : Run :=
  let err := env.newConfig
  let t := [Event.newConfig err.isNone]
  if err.isSome then ⟨t ++ [.logCrit "failed to load config file"], .exited 1⟩ else
  let t := t ++ [.withCancel .instanceCtx .root, .withCancel .loopCtx .root]
  let err := env.initDB
  let t := t ++ [.initDB err.isNone]
  if err.isSome then ⟨t ++ [.logCrit "failed to init db connection"], .exited 1⟩ else
  let t := t ++ [.observabilityServer]
  let err := env.dial
  let t := t ++ [.dial err.isNone]
  if err.isSome then ⟨t ++ [.logError "failed to connect l2 geth"], .returned err⟩ else
  let err := env.newLayer2Relayer
  let t := t ++ [.newLayer2Relayer .root err.isNone]
  if err.isSome then ⟨t ++ [.logError "failed to create l2 relayer"], .returned err⟩ else
  let t := t ++ [.newChunkProposer .instanceCtx]
  if err.isSome then ⟨t ++ [.logError "failed to create chunkProposer"], .returned err⟩ else
  let t := t ++ [.newBatchProposer .instanceCtx]
  if err.isSome then ⟨t ++ [.logError "failed to create batchProposer"], .returned err⟩ else
  let t := t ++ [.newL2WatcherClient .instanceCtx]
  let t := t ++ [.goLoop .loopCtx (2 * second) .watcherBackfill,
    .goLoop .loopCtx (2 * second) .tryProposeChunk,
    .goLoop .loopCtx (10 * second) .tryProposeBatch,
    .goLoop .loopCtx (2 * second) .processPendingBatches,
    .goLoop .loopCtx (15 * second) .processCommittedBatches]
  let t := t ++ [.logInfo "Start rollup-relayer successfully", .signalNotify]
  if env.interrupt then ⟨t ++ [.recvInterrupt] ++ shutdown env, .returned none⟩
  else ⟨t, .blocked⟩

/-! ## Observations on traces -/

/-- Startup succeeded: config loaded, database opened, L2 client dialled,
relayer constructed. -/
def Env.startupOk (env : Env) : Bool :=
  env.newConfig.isNone && env.initDB.isNone && env.dial.isNone && env.newLayer2Relayer.isNone

/-- The steps of the shutdown sequence. -/
def Event.isShutdownStep : Event → Bool
  | .loopCancel | .relayerClose | .instanceCancel | .closeDB _ => true
  | _ => false

/-- Calls of `database.CloseDB`. -/
def Event.isCloseDB : Event → Bool
  | .closeDB _ => true
  | _ => false

/-- Starts of a periodic unit. -/
def Event.isGoLoop : Event → Bool
  | .goLoop _ _ _ => true
  | _ => false

/-- Constructions of a proposer or of the watcher. -/
def Event.isWorkerCtor : Event → Bool
  | .newChunkProposer _ | .newBatchProposer _ | .newL2WatcherClient _ => true
  | _ => false

/-- The periodic units a trace has started, with context and interval. -/
def scheduled : List Event → List (PeriodicUnit × Nat × Ctx)
  | [] => []
  | .goLoop c i u :: es => (u, i, c) :: scheduled es
  | _ :: es => scheduled es

/-- The contexts whose cancel function a trace has called. -/
def cancelledBy : List Event → List Ctx
  | [] => []
  | .loopCancel :: es => .loopCtx :: cancelledBy es
  | .instanceCancel :: es => .instanceCtx :: cancelledBy es
  | _ :: es => cancelledBy es

/-- The context the Layer2Relayer was constructed with, if it was. -/
def relayerCtx : List Event → Option Ctx
  | [] => none
  | .newLayer2Relayer c _ :: _ => some c
  | _ :: es => relayerCtx es

/-- The contexts the proposers and the watcher were constructed with. -/
def workerCtxs : List Event → List Ctx
  | [] => []
  | .newChunkProposer c :: es => c :: workerCtxs es
  | .newBatchProposer c :: es => c :: workerCtxs es
  | .newL2WatcherClient c :: es => c :: workerCtxs es
  | _ :: es => workerCtxs es

/-- Every occurrence of an event satisfying `q` comes after an occurrence of an
event satisfying `p`. -/
def PrecededBy (p q : Event → Bool) (tr : List Event) : Prop :=
  ∀ pre e post, tr = pre ++ e :: post → q e = true → ∃ x ∈ pre, p x = true

/-- Executable check of `PrecededBy`. -/
def precededByB (p q : Event → Bool) : List Event → Bool
  | [] => true
  | e :: es => if q e then false else if p e then true else precededByB p q es

/-- The database connection is open at the end of a trace: the state of the
connection after replaying the `InitDB` and `CloseDB` calls. -/
def dbOpenAfter : List Event → Bool → Bool
  | [], b => b
  | .initDB true :: es, _ => dbOpenAfter es true
  | .closeDB _ :: es, _ => dbOpenAfter es false
  | _ :: es, b => dbOpenAfter es b

/-! ## The watcher loop (lines 93-101) -/

/-- Calls made by one run of the closure handed to `utils.LoopWithContext`. -/
inductive TickCall where
  | getLatestConfirmedBlockNumber (confirmations : Nat)
  | logError (msg : String)
  | tryFetchRunningMissingBlocks (number : Nat)
  deriving DecidableEq, Repr

/-- Number of `TryFetchRunningMissingBlocks` calls with a given argument list:
the arguments of those calls, in order. -/
def fetchArgs : List TickCall → List Nat
  | [] => []
  | .tryFetchRunningMissingBlocks n :: cs => n :: fetchArgs cs
  | _ :: cs => fetchArgs cs

/-- The closure of lines 94-101.  `confirmations` is `cfg.L2Config.Confirmations`;
`getLatest` stands for `butils.GetLatestConfirmedBlockNumber` on the L2 client
(its answer for a confirmation depth at this tick) and `tryFetch` for the state
change made by `l2watcher.TryFetchRunningMissingBlocks`; both live outside the
file and are parameters.  The result is the calls made and the state left. -/
def watcherTick {σ : Type} (confirmations : Nat) (tryFetch : Nat → σ → σ)
    (getLatest : Nat → Except GoError Nat) (s : σ) : List TickCall × σ :=
  match getLatest confirmations with
  | .error _ =>
    ([.getLatestConfirmedBlockNumber confirmations, .logError "failed to get block number"], s)
  | .ok number =>
    ([.getLatestConfirmedBlockNumber confirmations, .tryFetchRunningMissingBlocks number],
      tryFetch number s)

/-- Modelled from the spec: `utils.LoopWithContext` of `scroll-tech/common/utils`,
which is not among the sources.  "A cooperative shutdown signal stops scheduling
new ticks immediately": at every tick the unit of work runs, unless the context
is done, which ends the loop.  A tick is the pair of whether the context is done
when the tick arrives and the input the unit of work meets.  `utils.Loop` is the
same loop for a unit of work that does not receive the context. -/
def loopWithContext {α σ : Type} (f : α → σ → σ) : List (Bool × α) → σ → σ
  | [], s => s
  | (done, a) :: rest, s => if done then s else loopWithContext f rest (f a s)

/-! ## Chunk proposer -/

/-- An L2 block as the chunk proposer reads it (spec §3). -/
structure L2Block where
  height : Nat
  payloadSize : Nat
  rowConsumption : Nat
  timestamp : Nat
  deriving DecidableEq, Repr

/-- The ceilings and the deadline of the chunk proposer (spec §4.2). -/
structure ChunkProposerConfig where
  maxPayloadSize : Nat
  maxRowConsumption : Nat
  maxBlockNum : Nat
  chunkTimeoutSec : Nat
  deriving Repr

/-- Aggregate payload size of a candidate chunk. -/
def chunkPayloadSize (c : List L2Block) : Nat := (c.map (·.payloadSize)).sum

/-- Aggregate row consumption of a candidate chunk. -/
def chunkRowConsumption (c : List L2Block) : Nat := (c.map (·.rowConsumption)).sum

/-- No ceiling is exceeded by a candidate chunk. -/
def withinCeilings (cfg : ChunkProposerConfig) (c : List L2Block) : Bool :=
  decide (chunkPayloadSize c ≤ cfg.maxPayloadSize) &&
  decide (chunkRowConsumption c ≤ cfg.maxRowConsumption) &&
  decide (c.length ≤ cfg.maxBlockNum)

/-- Modelled from the spec: the greedy accumulation of `ChunkProposer`
(`scroll-tech/rollup/internal/controller/watcher`, not among the sources), spec
§4.2: blocks are added in height order, "checking after each addition whether
aggregate payload size, aggregate row consumption, or block count would exceed
configured ceilings", and the chunk is committed "at the last point before any
ceiling is crossed".  Returns the candidate, the blocks left, and whether a
ceiling stopped the accumulation. -/
def accumulate (cfg : ChunkProposerConfig) :
    List L2Block → List L2Block → List L2Block × List L2Block × Bool
  | acc, [] => (acc, [], false)
  | acc, b :: bs =>
    if withinCeilings cfg (acc ++ [b]) then accumulate cfg (acc ++ [b]) bs
    else (acc, b :: bs, true)

/-- Modelled from the spec: `ChunkProposer.TryProposeChunk`
(`scroll-tech/rollup/internal/controller/watcher`, not among the sources), spec
§4.2.  The candidate starts at the lowest unassigned block, which is taken
whatever its size ("if a single block alone exceeds a ceiling, that chunk
contains exactly that one block"); the chunk is proposed when a ceiling stopped
the accumulation or when the age of its oldest block exceeds the deadline,
otherwise nothing is proposed at this tick.  Returns the chunk proposed, if any,
and the blocks still unassigned. -/
def tryProposeChunk (cfg : ChunkProposerConfig) (now : Nat) :
    List L2Block → Option (List L2Block) × List L2Block
  | [] => (none, [])
  | b :: bs =>
    match accumulate cfg [b] bs with
    | (chunk, rest, hitCeiling) =>
      if hitCeiling || decide (cfg.chunkTimeoutSec < now - b.timestamp) then (some chunk, rest)
      else (none, b :: bs)

/-- The chunks proposed by the periodic unit over a sequence of ticks (the time
of each), from a list of unassigned blocks in height order. -/
def proposeChunks (cfg : ChunkProposerConfig) : List Nat → List L2Block → List (List L2Block)
  | [], _ => []
  | now :: ticks, blocks =>
    match tryProposeChunk cfg now blocks with
    | (some chunk, rest) => chunk :: proposeChunks cfg ticks rest
    | (none, rest) => proposeChunks cfg ticks rest

/-- A chunk holds exactly one block or stays within the payload and row ceilings. -/
def ChunkOk (cfg : ChunkProposerConfig) (c : List L2Block) : Prop :=
  c.length = 1 ∨
    (chunkPayloadSize c ≤ cfg.maxPayloadSize ∧ chunkRowConsumption c ≤ cfg.maxRowConsumption)

/-! ## Batch status state machine of the relayer -/

/-- Batch status values (spec §3). -/
inductive BatchStatus where
  | unassigned
  | pendingCommit
  | committed
  | pendingFinalize
  | finalized
  | failed
  deriving DecidableEq, Repr

/-- Position of a status on the chain
`unassigned → pending_commit → committed → pending_finalize → finalized`. -/
def BatchStatus.chainIndex : BatchStatus → Option Nat
  | .unassigned => some 0
  | .pendingCommit => some 1
  | .committed => some 2
  | .pendingFinalize => some 3
  | .finalized => some 4
  | .failed => none

/-- The second status is strictly later on the chain than the first. -/
def BatchStatus.forward (s t : BatchStatus) : Bool :=
  match s.chainIndex, t.chainIndex with
  | some i, some j => decide (i < j)
  | _, _ => false

/-- A batch as the relayer tracks it: status and the number of replacements of
its current transaction. -/
structure Batch where
  status : BatchStatus
  replacements : Nat
  deriving DecidableEq, Repr

/-- What a scan observes for one batch: whether the transaction is confirmed to
the required depth, whether it has been pending longer than the timeout, and
whether the validity proof is available. -/
structure Observation where
  confirmed : Bool
  timedOut : Bool
  proofAvailable : Bool
  deriving DecidableEq, Repr

/-- Modelled from the spec: confirmation handling of spec §4.4, shared by commit
and finalize confirmation (the relayer package is not among the sources):
confirmed gives the next status; a timeout replaces the transaction "up to a
configured retry ceiling; exceeding the ceiling moves the batch to `failed`". -/
def confirmStep (retryCeiling : Nat) (o : Observation) (next : BatchStatus) (b : Batch) : Batch :=
  if o.confirmed then { status := next, replacements := 0 }
  else if o.timedOut then
    if b.replacements < retryCeiling then { b with replacements := b.replacements + 1 }
    else { b with status := .failed }
  else b

/-- Modelled from the spec: `Layer2Relayer.ProcessPendingBatches`
(`scroll-tech/rollup/internal/controller/relayer`, not among the sources), the
commit scan of spec §4.4: commit phase for a batch in `unassigned`, commit
confirmation for a batch in `pending_commit`. -/
def processPendingBatches (retryCeiling : Nat) (o : Observation) (b : Batch) : Batch :=
  match b.status with
  | .unassigned => { status := .pendingCommit, replacements := 0 }
  | .pendingCommit => confirmStep retryCeiling o .committed b
  | _ => b

/-- Modelled from the spec: `Layer2Relayer.ProcessCommittedBatches`
(`scroll-tech/rollup/internal/controller/relayer`, not among the sources), the
finalize scan of spec §4.4: finalize phase for a batch in `committed` whose
proof is available, finalize confirmation for a batch in `pending_finalize`. -/
def processCommittedBatches (retryCeiling : Nat) (o : Observation) (b : Batch) : Batch :=
  match b.status with
  | .committed => if o.proofAvailable then { status := .pendingFinalize, replacements := 0 } else b
  | .pendingFinalize => confirmStep retryCeiling o .finalized b
  | _ => b

/-- The two periodic scans of the relayer started by `action`. -/
inductive Scan where
  | pending
  | committed
  deriving DecidableEq, Repr

/-- One step of a periodic scan on a batch. -/
def scanStep (retryCeiling : Nat) (b : Batch) (step : Scan × Observation) : Batch :=
  match step.1 with
  | .pending => processPendingBatches retryCeiling step.2 b
  | .committed => processCommittedBatches retryCeiling step.2 b

/-- Any number of steps of the periodic scans on a batch. -/
def runScans (retryCeiling : Nat) (b : Batch) (steps : List (Scan × Observation)) : Batch :=
  steps.foldl (scanStep retryCeiling) b

/-- The relation the status lifecycle allows between the status before and after:
unchanged, forward on the chain, or `failed`. -/
def BatchStatus.allowed (s t : BatchStatus) : Prop :=
  t = s ∨ s.forward t = true ∨ t = .failed

/-! ## Properties of `action` -/

/-- The executable check is sound for `PrecededBy`. -/
theorem precededByB_sound (p q : Event → Bool) (tr : List Event)
    (h : precededByB p q tr = true) : PrecededBy p q tr := by
  induction tr with
  | nil =>
    intro pre e post heq
    cases pre <;> simp at heq
  | cons a as ih =>
    intro pre e post heq hq
    simp only [precededByB] at h
    cases pre with
    | nil =>
      simp only [List.nil_append, List.cons.injEq] at heq
      obtain ⟨rfl, -⟩ := heq
      simp [hq] at h
    | cons x pre1 =>
      simp only [List.cons_append, List.cons.injEq] at heq
      obtain ⟨rfl, rfl⟩ := heq
      by_cases hqa : q a = true
      · simp [hqa] at h
      · by_cases hpa : p a = true
        · exact ⟨a, by simp, hpa⟩
        · simp only [hqa, hpa, Bool.false_eq_true, if_false] at h
          obtain ⟨y, hy, hpy⟩ := ih h pre1 e post rfl hq
          exact ⟨y, by simp [hy], hpy⟩

/-- C1: in every execution of `action`, `database.CloseDB` is never called before
`l2relayer.Close` has been called (and returned), and `l2relayer.Close` is never
called before `loopCancel`; when startup succeeded and the interrupt arrives,
the shutdown steps of the whole run are exactly loop cancel, relayer close,
instance cancel, database close, in this order. -/
theorem action_shutdown_order (env : Env) :
    PrecededBy (fun e => e == .relayerClose) Event.isCloseDB (action env).trace ∧
    PrecededBy (fun e => e == .loopCancel) (fun e => e == .relayerClose) (action env).trace ∧
    (env.startupOk = true → env.interrupt = true →
      (action env).trace.filter Event.isShutdownStep =
        [.loopCancel, .relayerClose, .instanceCancel, .closeDB env.closeDB.isNone]) := by
  obtain ⟨a, b, c, d, e, i⟩ := env
  refine ⟨precededByB_sound _ _ _ ?_, precededByB_sound _ _ _ ?_, ?_⟩ <;>
    cases a <;> cases b <;> cases c <;> cases d <;> cases e <;> cases i <;>
    simp [action, shutdown, precededByB, Event.isCloseDB, Event.isShutdownStep, Env.startupOk]

theorem action_shutdown_order_witness :
    (action ⟨none, none, none, none, none, true⟩).trace.filter Event.isShutdownStep =
      [.loopCancel, .relayerClose, .instanceCancel, .closeDB true] :=
  (action_shutdown_order ⟨none, none, none, none, none, true⟩).2.2 rfl rfl

/-- C2: after a successful start, `action` has started exactly five periodic
units, in this order and with these intervals: watcher backfill (2s),
TryProposeChunk (2s), TryProposeBatch (10s), ProcessPendingBatches (2s),
ProcessCommittedBatches (15s); each is bound to the loop context, so each of
their contexts is done once the loop context alone is cancelled (and none is
done by cancelling the instance context), and a loop whose tick arrives after
that cancellation runs no further unit of work. -/
theorem action_schedules_five_units (env : Env) (h : env.startupOk = true) :
    scheduled (action env).trace =
      [(.watcherBackfill, 2 * second, .loopCtx),
       (.tryProposeChunk, 2 * second, .loopCtx),
       (.tryProposeBatch, 10 * second, .loopCtx),
       (.processPendingBatches, 2 * second, .loopCtx),
       (.processCommittedBatches, 15 * second, .loopCtx)] ∧
    (scheduled (action env).trace).all (fun u => Ctx.done [.loopCtx] u.2.2) = true ∧
    (scheduled (action env).trace).all (fun u => !Ctx.done [.instanceCtx] u.2.2) = true ∧
    (∀ u ∈ scheduled (action env).trace,
      ∀ (f : Nat → List Nat → List Nat) (a : Nat) (rest : List (Bool × Nat)) (s : List Nat),
        loopWithContext f ((Ctx.done [.loopCtx] u.2.2, a) :: rest) s = s) := by
  obtain ⟨a, b, c, d, e, i⟩ := env
  cases a <;> cases b <;> cases c <;> cases d <;> cases e <;> cases i <;>
    simp [Env.startupOk] at h <;>
    simp [action, shutdown, scheduled, Ctx.done, Ctx.derivedFrom, Ctx.parent, loopWithContext]

theorem action_schedules_five_units_witness :
    (scheduled (action ⟨none, none, none, none, none, false⟩).trace).map (fun u => u.1) =
      [.watcherBackfill, .tryProposeChunk, .tryProposeBatch, .processPendingBatches,
       .processCommittedBatches] := by
  rw [(action_schedules_five_units ⟨none, none, none, none, none, false⟩ rfl).1]
  rfl

/-- C3: when startup succeeded, `action` returns exactly when the interrupt is
delivered (it stays blocked on the channel otherwise), the value returned is
nil whatever `database.CloseDB` answers, the receive of the interrupt is in the
trace of every run that returns, and no shutdown step happens before it. -/
theorem action_returns_nil_after_interrupt (env : Env) (h : env.startupOk = true) :
    (env.interrupt = true → (action env).outcome = .returned none) ∧
    (env.interrupt = false → (action env).outcome = .blocked) ∧
    (∀ r, (action env).outcome = .returned r →
      r = none ∧ env.interrupt = true ∧ Event.recvInterrupt ∈ (action env).trace) ∧
    PrecededBy (fun e => e == .recvInterrupt) Event.isShutdownStep (action env).trace := by
  obtain ⟨a, b, c, d, e, i⟩ := env
  refine ⟨?_, ?_, ?_, precededByB_sound _ _ _ ?_⟩ <;>
    cases a <;> cases b <;> cases c <;> cases d <;> cases e <;> cases i <;>
    simp [Env.startupOk] at h <;>
    simp [action, shutdown, precededByB, Event.isShutdownStep]

theorem action_returns_nil_after_interrupt_witness :
    (action ⟨none, none, none, none, some "close failed", true⟩).outcome = .returned none :=
  (action_returns_nil_after_interrupt ⟨none, none, none, none, some "close failed", true⟩ rfl).1 rfl

/-- C6 (code at the failing input): in a run whose startup succeeds and which is
interrupted, the Layer2Relayer was constructed with `ctx.Context`, which is not
derived from the instance context and is not done after the calls of
`loopCancel` and `instanceCancel`, whereas the chunk proposer, the batch
proposer and the watcher were constructed with the instance context, which is
done. -/
theorem action_relayer_ctx_not_instance :
    relayerCtx (action ⟨none, none, none, none, none, true⟩).trace = some .root ∧
    Ctx.root.derivedFrom .instanceCtx = false ∧
    cancelledBy (action ⟨none, none, none, none, none, true⟩).trace = [.loopCtx, .instanceCtx] ∧
    Ctx.done (cancelledBy (action ⟨none, none, none, none, none, true⟩).trace) .root = false ∧
    workerCtxs (action ⟨none, none, none, none, none, true⟩).trace =
      [.instanceCtx, .instanceCtx, .instanceCtx] ∧
    Ctx.done (cancelledBy (action ⟨none, none, none, none, none, true⟩).trace) .instanceCtx
      = true := by
  decide

/-- C7 (code at the failing input): when the database is opened and dialling the
L2 client fails, `action` returns the dial error, `database.CloseDB` is never
called and the connection is still open when `action` returns; the same holds
when the relayer cannot be constructed. -/
theorem action_leaves_db_open_on_startup_error :
    (action ⟨none, none, some "dial failed", none, none, true⟩).outcome
      = .returned (some "dial failed") ∧
    Event.initDB true ∈ (action ⟨none, none, some "dial failed", none, none, true⟩).trace ∧
    (action ⟨none, none, some "dial failed", none, none, true⟩).trace.filter Event.isCloseDB
      = [] ∧
    dbOpenAfter (action ⟨none, none, some "dial failed", none, none, true⟩).trace false = true ∧
    (action ⟨none, none, none, some "relayer failed", none, true⟩).outcome
      = .returned (some "relayer failed") ∧
    dbOpenAfter (action ⟨none, none, none, some "relayer failed", none, true⟩).trace false
      = true := by
  decide

/-- C9: in a run where dialling the L2 client fails, `action` returns exactly the
error of `ethclient.Dial`; in a run where constructing the Layer2Relayer fails,
it returns exactly the error of `NewLayer2Relayer`; in both, no periodic unit
has been started and no proposer or watcher has been constructed. -/
theorem action_startup_error_returned (env : Env)
    (h : Event.dial false ∈ (action env).trace ∨
      Event.newLayer2Relayer .root false ∈ (action env).trace) :
    (Event.dial false ∈ (action env).trace →
      env.dial.isSome = true ∧ (action env).outcome = .returned env.dial) ∧
    (Event.newLayer2Relayer .root false ∈ (action env).trace →
      env.newLayer2Relayer.isSome = true ∧
      (action env).outcome = .returned env.newLayer2Relayer) ∧
    scheduled (action env).trace = [] ∧
    (action env).trace.filter Event.isGoLoop = [] ∧
    (action env).trace.filter Event.isWorkerCtor = [] := by
  obtain ⟨a, b, c, d, e, i⟩ := env
  cases a <;> cases b <;> cases c <;> cases d <;> cases e <;> cases i <;>
    simp [action, shutdown] at h <;>
    simp [action, shutdown, scheduled, Event.isGoLoop, Event.isWorkerCtor]

theorem action_startup_error_returned_witness :
    (action ⟨none, none, none, some "relayer failed", none, true⟩).outcome
      = .returned (some "relayer failed") :=
  ((action_startup_error_returned ⟨none, none, none, some "relayer failed", none, true⟩
    (Or.inr (by decide))).2.1 (by decide)).2

/-- C10: in every execution of `action`, neither "failed to create chunkProposer"
nor "failed to create batchProposer" is reported; whenever the chunk proposer
or the batch proposer has been constructed, the error of `NewLayer2Relayer`
(the last assignment of `err`) is nil and execution goes on to construct the
watcher. -/
theorem action_proposer_error_branches_dead (env : Env) :
    Event.logError "failed to create chunkProposer" ∉ (action env).trace ∧
    Event.logError "failed to create batchProposer" ∉ (action env).trace ∧
    (∀ c, Event.newChunkProposer c ∈ (action env).trace ∨
        Event.newBatchProposer c ∈ (action env).trace →
      env.newLayer2Relayer = none ∧
      Event.newL2WatcherClient .instanceCtx ∈ (action env).trace) := by
  obtain ⟨a, b, c, d, e, i⟩ := env
  cases a <;> cases b <;> cases c <;> cases d <;> cases e <;> cases i <;>
    simp [action, shutdown]

theorem action_proposer_error_branches_dead_witness :
    (⟨none, none, none, none, none, false⟩ : Env).newLayer2Relayer = none ∧
    Event.newL2WatcherClient .instanceCtx ∈ (action ⟨none, none, none, none, none, false⟩).trace :=
  (action_proposer_error_branches_dead ⟨none, none, none, none, none, false⟩).2.2 .instanceCtx
    (Or.inl (by decide))

/-! ## The watcher tick -/

/-- C8: for every tick of the watcher closure, which asks for the latest
confirmed block number with the configured confirmation depth: if that fails,
`TryFetchRunningMissingBlocks` is not called, the state is unchanged and the
loop goes on with the next tick from the same state; if it succeeds with `n`,
`TryFetchRunningMissingBlocks` is called exactly once, with `n`. -/
theorem watcherTick_spec {σ : Type} (confirmations : Nat) (tryFetch : Nat → σ → σ)
    (getLatest : Nat → Except GoError Nat) (s : σ) :
    TickCall.getLatestConfirmedBlockNumber confirmations ∈
      (watcherTick confirmations tryFetch getLatest s).1 ∧
    (∀ e, getLatest confirmations = .error e →
      fetchArgs (watcherTick confirmations tryFetch getLatest s).1 = [] ∧
      (watcherTick confirmations tryFetch getLatest s).2 = s ∧
      ∀ rest, loopWithContext (fun g st => (watcherTick confirmations tryFetch g st).2)
          ((false, getLatest) :: rest) s =
        loopWithContext (fun g st => (watcherTick confirmations tryFetch g st).2) rest s) ∧
    (∀ n, getLatest confirmations = .ok n →
      fetchArgs (watcherTick confirmations tryFetch getLatest s).1 = [n] ∧
      (watcherTick confirmations tryFetch getLatest s).2 = tryFetch n s) := by
  refine ⟨?_, ?_, ?_⟩
  · unfold watcherTick
    cases getLatest confirmations <;> simp
  · intro e he
    simp [watcherTick, he, fetchArgs, loopWithContext]
  · intro n hn
    simp [watcherTick, hn, fetchArgs]

theorem watcherTick_spec_witness :
    fetchArgs (watcherTick 6 (fun n st => st ++ [n]) (fun c => .ok (100 - c)) []).1 = [94] ∧
    (watcherTick 6 (fun n st => st ++ [n]) (fun c => .ok (100 - c)) []).2 = [94] ∧
    (watcherTick 6 (fun n (st : List Nat) => st ++ [n]) (fun _ => .error "timeout") [3]).2
      = [3] :=
  ⟨((watcherTick_spec 6 (fun n st => st ++ [n]) (fun c => .ok (100 - c)) []).2.2 94 rfl).1,
   ((watcherTick_spec 6 (fun n st => st ++ [n]) (fun c => .ok (100 - c)) []).2.2 94 rfl).2,
   ((watcherTick_spec 6 (fun n (st : List Nat) => st ++ [n]) (fun _ => .error "timeout")
      [3]).2.1 "timeout" rfl).2.1⟩

/-! ## Chunk ceilings -/

/-- Accumulation keeps a candidate that is a single block or within the ceilings
in that shape. -/
theorem accumulate_ok (cfg : ChunkProposerConfig) (rest acc : List L2Block)
    (h : ChunkOk cfg acc) : ChunkOk cfg (accumulate cfg acc rest).1 := by
  induction rest generalizing acc with
  | nil => simpa [accumulate] using h
  | cons b bs ih =>
    unfold accumulate
    by_cases hw : withinCeilings cfg (acc ++ [b]) = true
    · rw [if_pos hw]
      apply ih
      right
      simp only [withinCeilings, Bool.and_eq_true, decide_eq_true_eq] at hw
      exact ⟨hw.1.1, hw.1.2⟩
    · rw [if_neg hw]
      exact h

/-- A chunk proposed by one tick is a single block or within the ceilings. -/
theorem tryProposeChunk_ok (cfg : ChunkProposerConfig) (now : Nat) (blocks c : List L2Block)
    (h : (tryProposeChunk cfg now blocks).1 = some c) : ChunkOk cfg c := by
  cases blocks with
  | nil => simp [tryProposeChunk] at h
  | cons b bs =>
    have hacc := accumulate_ok cfg bs [b] (Or.inl rfl)
    simp only [tryProposeChunk] at h
    rcases hres : accumulate cfg [b] bs with ⟨chunk, rest, hit⟩
    rw [hres] at h hacc
    simp only at h
    split at h
    · simp only [Option.some.injEq] at h
      subst h
      exact hacc
    · simp at h

/-- Every chunk proposed over a sequence of ticks is a single block or within
the ceilings. -/
theorem proposeChunks_ok (cfg : ChunkProposerConfig) (ticks : List Nat) (blocks : List L2Block) :
    ∀ c ∈ proposeChunks cfg ticks blocks, ChunkOk cfg c := by
  induction ticks generalizing blocks with
  | nil => simp [proposeChunks]
  | cons now ticks ih =>
    intro c hc
    unfold proposeChunks at hc
    rcases hres : tryProposeChunk cfg now blocks with ⟨o, rest⟩
    rw [hres] at hc
    cases o with
    | none => exact ih rest c hc
    | some chunk =>
      simp only [List.mem_cons] at hc
      rcases hc with rfl | hc
      · exact tryProposeChunk_ok cfg now blocks c (by rw [hres])
      · exact ih rest c hc

/-- C4: for every sequence of blocks, every configuration and every sequence of
ticks, each chunk proposed holds exactly one block or has aggregate payload
size and aggregate row consumption within the ceilings; and three blocks whose
payload size is 40% of the size ceiling are proposed as `[block1, block2]` at
the first tick and `[block3]` at a tick after the deadline. -/
theorem proposed_chunk_within_ceilings (cfg : ChunkProposerConfig) (ticks : List Nat)
    (blocks : List L2Block) :
    (∀ c ∈ proposeChunks cfg ticks blocks, c.length = 1 ∨
      (chunkPayloadSize c ≤ cfg.maxPayloadSize ∧
        chunkRowConsumption c ≤ cfg.maxRowConsumption)) ∧
    (∀ size t0 t1 : Nat, 0 < size → 5 * size = 2 * cfg.maxPayloadSize →
      2 ≤ cfg.maxBlockNum → cfg.chunkTimeoutSec < t1 →
      proposeChunks cfg [t0, t1] [⟨1, size, 0, 0⟩, ⟨2, size, 0, 0⟩, ⟨3, size, 0, 0⟩] =
        [[⟨1, size, 0, 0⟩, ⟨2, size, 0, 0⟩], [⟨3, size, 0, 0⟩]]) := by
  refine ⟨proposeChunks_ok cfg ticks blocks, ?_⟩
  intro size t0 t1 hpos hsize hnum hdl
  have h2 : size + size ≤ cfg.maxPayloadSize := by omega
  have h3 : ¬ (size + (size + size) ≤ cfg.maxPayloadSize) := by omega
  simp [proposeChunks, tryProposeChunk, accumulate, withinCeilings, chunkPayloadSize,
    chunkRowConsumption, h2, h3, hnum, hdl]

theorem proposed_chunk_within_ceilings_witness :
    proposeChunks ⟨100, 1000, 10, 60⟩ [0, 61] [⟨1, 40, 0, 0⟩, ⟨2, 40, 0, 0⟩, ⟨3, 40, 0, 0⟩] =
      [[⟨1, 40, 0, 0⟩, ⟨2, 40, 0, 0⟩], [⟨3, 40, 0, 0⟩]] ∧
    (chunkPayloadSize [⟨1, 40, 0, 0⟩, ⟨2, 40, 0, 0⟩] ≤ 100 ∧
      chunkRowConsumption [⟨1, 40, 0, 0⟩, ⟨2, 40, 0, 0⟩] ≤ 1000) :=
  ⟨(proposed_chunk_within_ceilings ⟨100, 1000, 10, 60⟩ [0, 61]
      [⟨1, 40, 0, 0⟩, ⟨2, 40, 0, 0⟩, ⟨3, 40, 0, 0⟩]).2 40 0 61
      (by decide) (by decide) (by decide) (by decide),
   Or.resolve_left ((proposed_chunk_within_ceilings ⟨100, 1000, 10, 60⟩ [0, 61]
      [⟨1, 40, 0, 0⟩, ⟨2, 40, 0, 0⟩, ⟨3, 40, 0, 0⟩]).1 [⟨1, 40, 0, 0⟩, ⟨2, 40, 0, 0⟩]
      (by decide)) (by decide)⟩

/-! ## Batch status lifecycle -/

/-- The allowed relation between statuses is transitive. -/
theorem allowed_trans (s t u : BatchStatus) (h1 : s.allowed t) (h2 : t.allowed u) :
    s.allowed u := by
  unfold BatchStatus.allowed at *
  cases s <;> cases t <;> cases u <;> simp_all [BatchStatus.forward, BatchStatus.chainIndex]

/-- One scan step changes the status of a batch in an allowed way only. -/
theorem scanStep_allowed (retryCeiling : Nat) (b : Batch) (step : Scan × Observation) :
    b.status.allowed (scanStep retryCeiling b step).status := by
  obtain ⟨st, r⟩ := b
  obtain ⟨sc, ⟨cf, timedOut, pa⟩⟩ := step
  unfold BatchStatus.allowed
  cases sc <;> cases st <;> cases cf <;> cases timedOut <;> cases pa <;>
    simp [scanStep, processPendingBatches, processCommittedBatches, confirmStep,
      BatchStatus.forward, BatchStatus.chainIndex] <;>
    split <;> simp

/-- Any number of scan steps changes the status in an allowed way only. -/
theorem runScans_allowed (retryCeiling : Nat) (steps : List (Scan × Observation)) (b : Batch) :
    b.status.allowed (runScans retryCeiling b steps).status := by
  induction steps generalizing b with
  | nil => exact Or.inl rfl
  | cons step steps ih =>
    have h1 := scanStep_allowed retryCeiling b step
    have h2 := ih (scanStep retryCeiling b step)
    simpa [runScans] using allowed_trans _ _ _ h1 h2

/-- C5: for every batch, every retry ceiling and every sequence of steps of the
two periodic scans (one step included), the status after is the status before,
a status strictly later on the chain unassigned, pending_commit, committed,
pending_finalize, finalized, or `failed`; it is never a status earlier on the
chain than the status before. -/
theorem batch_status_monotone (retryCeiling : Nat) (b : Batch)
    (steps : List (Scan × Observation)) :
    ((runScans retryCeiling b steps).status = b.status ∨
      b.status.forward (runScans retryCeiling b steps).status = true ∨
      (runScans retryCeiling b steps).status = .failed) ∧
    (runScans retryCeiling b steps).status.forward b.status = false := by
  have h := runScans_allowed retryCeiling steps b
  refine ⟨h, ?_⟩
  unfold BatchStatus.allowed at h
  generalize (runScans retryCeiling b steps).status = t at h
  generalize b.status = s at h
  cases s <;> cases t <;> simp_all [BatchStatus.forward, BatchStatus.chainIndex]

end RollupRelayer
